import Mathlib

/-!
Verification of the Tinder data-evaluation report pipeline (`main.py`).

The embedding models the pure computational core of the script:

* Python dict values that may be ints or strings (`PyVal`), since the data
  model allows counts "possibly encoded as a numeric string";
* Python exceptions as an `Except PyErr` monad, with the error taxonomy of
  the spec (`FormatError` for date-parse failures, `ValueConversion` as
  `valueError` for `int()` failures and empty `min()`/`max()`,
  `typeError` for str-vs-int operations, `zeroDivision`);
* the grouping aggregator `_get_mapped_sum`, the series builder
  `_split_tuples(sorted(...))`, and the report sections `general_info`,
  `swipes_total`, `messages_total`.

Strings are manipulated through their character lists so that every
definition evaluates by kernel reduction.  Python float formatting
`{:.1f}` is modelled as integer tenths produced by round-half-up division;
`np.mean` of an empty slice is modelled by the `MeanVal.nan` marker, since
numpy returns NaN (with a RuntimeWarning) instead of raising.
-/

/-- Python exception taxonomy used by the script, following the spec's §7. -/
inductive PyErr where
  /-- a date string fails to parse under the expected pattern -/
  | formatError
  /-- `int()` on a malformed string, or `min`/`max` of an empty sequence -/
  | valueError
  /-- an operation between a `str` and an `int`, e.g. `"3" > 0` or `0 + "3"` -/
  | typeError
  /-- division by zero -/
  | zeroDivision
deriving DecidableEq

/-- A dict value of the data export: a count, or a count encoded as a string. -/
inductive PyVal where
  | intV (n : Int)
  | strV (s : String)
deriving DecidableEq

/-- Decidable equality of `Except` results, for evaluating the model on
concrete inputs. -/
instance {e a : Type} [DecidableEq e] [DecidableEq a] : DecidableEq (Except e a) := fun x y =>
  match x, y with
  | .ok u, .ok v =>
    if h : u = v then isTrue (by rw [h]) else isFalse (by intro hc; cases hc; exact h rfl)
  | .ok _, .error _ => isFalse (by intro hc; cases hc)
  | .error _, .ok _ => isFalse (by intro hc; cases hc)
  | .error u, .error v =>
    if h : u = v then isTrue (by rw [h]) else isFalse (by intro hc; cases hc; exact h rfl)

/-- A Python dict of date-string keys, in insertion order (keys unique). -/
abbrev PyDict := List (String × PyVal)

/-- Digits of a character list as a natural number, `none` if empty or not all digits. -/
def digits_to_nat (cs : List Char) : Option Nat :=
  if cs ≠ [] ∧ cs.all Char.isDigit then
    some (cs.foldl (fun acc c => acc * 10 + (c.toNat - 48)) 0)
  else none

/-- Python `int(s)` on a string: optional sign followed by digits. -/
def parse_int_str (cs : List Char) : Option Int :=
  match cs with
  | '-' :: rest => (digits_to_nat rest).map (fun n => -(n : Int))
  | '+' :: rest => (digits_to_nat rest).map (fun n => (n : Int))
  | _ => (digits_to_nat cs).map (fun n => (n : Int))

/-- Python `int(v)` as used in `_get_mapped_sum` (line 272): the identity on
ints, string parsing on strings, `ValueError` on a malformed string. -/
def py_int : PyVal → Except PyErr Int
  | .intV n => .ok n
  | .strV s =>
    match parse_int_str s.data with
    | some n => .ok n
    | none => .error .valueError

/-- Python `v > 0` as used in `general_info` (lines 36 and 46): comparison of
a string with an int raises `TypeError`. -/
def py_gt_zero : PyVal → Except PyErr Bool
  | .intV n => .ok (0 < n)
  | .strV _ => .error .typeError

/-- One `mapped[g] += v` step on a `defaultdict(int)` represented as an
association list in insertion order: add to the existing group, or append a
new group initialised to `0 + v`. -/
def defaultdict_add {G : Type} [DecidableEq G] :
    List (G × Int) → G → Int → List (G × Int)
  | [], g, v => [(g, v)]
  | (g', v') :: rest, g, v =>
    if g' = g then (g', v' + v) :: rest else (g', v') :: defaultdict_add rest g v

/-- The loop of `_get_mapped_sum` (lines 271-272): for each key `k` of the
data, in order, evaluate the classifier on `k`, then coerce the value with
`int(...)`, then accumulate into the defaultdict. -/
def get_mapped_sum_go {G : Type} [DecidableEq G] (f : String → Except PyErr G) :
    PyDict → List (G × Int) → Except PyErr (List (G × Int))
  | [], acc => .ok acc
  | (k, v) :: rest, acc => do
    let g ← f k
    let n ← py_int v
    get_mapped_sum_go f rest (defaultdict_add acc g n)

/-- `_get_mapped_sum(map, data)` (lines 269-273): group the dict `data` by
the classification function `map`, summing the int-coerced values. -/
def get_mapped_sum {G : Type} [DecidableEq G] (f : String → Except PyErr G)
    (data : PyDict) : Except PyErr (List (G × Int)) :=
  get_mapped_sum_go f data []

/-- Sum of the int-coerced values of a dict, in iteration order (the sum the
conservation property compares the grouped output against). -/
def sum_py : PyDict → Except PyErr Int
  | [] => .ok 0
  | (_, v) :: rest => do
    let n ← py_int v
    let s ← sum_py rest
    .ok (n + s)

/-- Sum of the values of a grouped mapping. -/
def sum_vals {G : Type} (m : List (G × Int)) : Int :=
  (m.map Prod.snd).sum

-- The classifiers -------------------------------------------------------------

/-- The month classifier `lambda x: x[0:7]` (lines 71, 166, 193): the first
seven characters of the date string.  Python slicing never raises; a shorter
string is returned whole. -/
def id_fun_month (x : String) : Except PyErr String :=
  .ok ⟨x.data.take 7⟩

/-- Leap year per the Gregorian rule (as `datetime` validates it). -/
def is_leap (y : Nat) : Bool :=
  y % 4 = 0 && (y % 100 != 0 || y % 400 = 0)

/-- Number of days of month `m` in year `y`. -/
def days_in_month (y m : Nat) : Nat :=
  if m = 2 then (if is_leap y then 29 else 28)
  else if m = 4 || m = 6 || m = 9 || m = 11 then 30
  else 31

/-- Split a character list at `'-'` separators. -/
def split_dash : List Char → List (List Char)
  | [] => [[]]
  | c :: rest =>
    match split_dash rest with
    | [] => [[]]
    | g :: gs => if c = '-' then [] :: g :: gs else (c :: g) :: gs

/-- `datetime.strptime(x, "%Y-%m-%d")`: exactly three dash-separated digit
groups, the year of exactly four digits (CPython's `%Y` pattern), month and
day of at most two digits, with calendar validation. -/
def parse_date (s : String) : Option (Nat × Nat × Nat) :=
  match split_dash s.data with
  | [ys, ms, ds] =>
    match digits_to_nat ys, digits_to_nat ms, digits_to_nat ds with
    | some y, some m, some d =>
      if ys.length = 4 ∧ ms.length ≤ 2 ∧ ds.length ≤ 2 ∧
          1 ≤ y ∧ 1 ≤ m ∧ m ≤ 12 ∧ 1 ≤ d ∧ d ≤ days_in_month y m then
        some (y, m, d)
      else none
    | _, _, _ => none
  | _ => none

/-- Days since 1970-01-01 of a proleptic Gregorian date (civil-from-days
algorithm), the day arithmetic behind `datetime` subtraction and `weekday`. -/
def days_from_civil (y m d : Nat) : Int :=
  let y2 : Int := if m ≤ 2 then (y : Int) - 1 else (y : Int)
  let era : Int := Int.fdiv y2 400
  let yoe : Int := y2 - era * 400
  let mp : Int := if 2 < m then (m : Int) - 3 else (m : Int) + 9
  let doy : Int := Int.fdiv (153 * mp + 2) 5 + (d : Int) - 1
  let doe : Int := yoe * 365 + Int.fdiv yoe 4 - Int.fdiv yoe 100 + doy
  era * 146097 + doe - 719468

/-- `date.weekday()`: Monday = 0 … Sunday = 6 (1970-01-01 was a Thursday). -/
def weekday_of (y m d : Nat) : Nat :=
  (Int.fmod (days_from_civil y m d + 3) 7).toNat

/-- The weekday classifier
`lambda x: datetime.strptime(x, DATEFORMAT).weekday()` (lines 97, 216, 244):
parse per `YYYY-MM-DD` — raising a format error on failure — and map to the
weekday ordinal. -/
def id_fun_weekday (x : String) : Except PyErr Nat :=
  match parse_date x with
  | some (y, m, d) => .ok (weekday_of y m d)
  | none => .error .formatError

-- Series builder --------------------------------------------------------------

/-- Python tuple comparison as used by `sorted` on `dict.items()`:
lexicographic on the (key, value) pair. -/
def pair_le {G : Type} [LinearOrder G] (a b : G × Int) : Prop :=
  a.1 < b.1 ∨ (a.1 = b.1 ∧ a.2 ≤ b.2)

instance {G : Type} [LinearOrder G] : DecidableRel (pair_le (G := G)) :=
  fun a b => by unfold pair_le; infer_instance

instance {G : Type} [LinearOrder G] : IsTotal (G × Int) pair_le where
  total a b := by
    rcases lt_trichotomy a.1 b.1 with h | h | h
    · exact Or.inl (Or.inl h)
    · rcases le_total a.2 b.2 with h2 | h2
      · exact Or.inl (Or.inr ⟨h, h2⟩)
      · exact Or.inr (Or.inr ⟨h.symm, h2⟩)
    · exact Or.inr (Or.inl h)

instance {G : Type} [LinearOrder G] : IsTrans (G × Int) pair_le where
  trans a b c hab hbc := by
    rcases hab with h1 | ⟨e1, l1⟩
    · rcases hbc with h2 | ⟨e2, l2⟩
      · exact Or.inl (h1.trans h2)
      · exact Or.inl (e2 ▸ h1)
    · rcases hbc with h2 | ⟨e2, l2⟩
      · exact Or.inl (e1 ▸ h2)
      · exact Or.inr ⟨e1.trans e2, l1.trans l2⟩

/-- `sorted(mapped.items())` (Python's stable sort on the item pairs). -/
def py_sorted {G : Type} [LinearOrder G] (l : List (G × Int)) : List (G × Int) :=
  List.insertionSort pair_le l

/-- `_split_tuples(tuple_list)` (lines 276-277): the list of first components
and the list of second components. -/
def split_tuples {G : Type} (l : List (G × Int)) : List G × List Int :=
  (l.map Prod.fst, l.map Prod.snd)

/-- The Series Builder as invoked at every chart site:
`_split_tuples(sorted(mapped.items()))`. -/
def series_builder {G : Type} [LinearOrder G] (m : List (G × Int)) :
    List G × List Int :=
  split_tuples (py_sorted m)

-- Formatting model -------------------------------------------------------------

/-- `f"{a/b*100:.1f}"` as an integer number of tenths of a percent:
round-half-up of `a/b*100` to one decimal (`Int.fdiv (2*p + q) (2*q)` is
`⌊p/q + 1/2⌋`). -/
def pct_tenths (a b : Int) : Int :=
  Int.fdiv (2 * (a * 1000) + b) (2 * b)

/-- The value `np.mean` produces, formatted to one decimal: NaN on an empty
slice (numpy warns and returns NaN instead of raising), otherwise the mean
in tenths. -/
inductive MeanVal where
  | nan
  | num (tenths : Int)
deriving DecidableEq

-- General Info section ---------------------------------------------------------

/-- Python string `<=`: lexicographic comparison of the code points, a proper
prefix ordered first. -/
def lex_le_chars : List Char → List Char → Bool
  | [], _ => true
  | _ :: _, [] => false
  | a :: as, b :: bs => if a = b then lex_le_chars as bs else decide (a < b)

/-- Python `min` of two strings (keeps the first on ties). -/
def str_min (a b : String) : String :=
  if lex_le_chars a.data b.data then a else b

/-- Python `max` of two strings. -/
def str_max (a b : String) : String :=
  if lex_le_chars a.data b.data then b else a

/-- `min(v for v in keys)` (line 34): `ValueError` on an empty sequence. -/
def py_min_str : List String → Except PyErr String
  | [] => .error .valueError
  | x :: xs => .ok (xs.foldl str_min x)

/-- `max(v for v in keys)` (line 35). -/
def py_max_str : List String → Except PyErr String
  | [] => .error .valueError
  | x :: xs => .ok (xs.foldl str_max x)

/-- `len([v for v in values if v > 0])` (line 36): the comparisons are
evaluated left to right and a string value raises `TypeError`. -/
def count_used : List PyVal → Except PyErr Nat
  | [] => .ok 0
  | v :: rest => do
    let b ← py_gt_zero v
    let c ← count_used rest
    .ok (if b then c + 1 else c)

/-- `[int(v) for v in values if v > 0]` (line 46): per element the filter
condition is evaluated first, then the coercion. -/
def collect_positive : List PyVal → Except PyErr (List Int)
  | [] => .ok []
  | v :: rest => do
    let b ← py_gt_zero v
    if b then
      let n ← py_int v
      let l ← collect_positive rest
      .ok (n :: l)
    else
      collect_positive rest

/-- `np.mean([...])` formatted with `:.1f` (line 46): NaN on the empty list,
otherwise the mean rounded to tenths. -/
def mean_positive (vs : List PyVal) : Except PyErr MeanVal := do
  let l ← collect_positive vs
  match l with
  | [] => .ok .nan
  | _ => .ok (.num (Int.fdiv (2 * (l.sum * 10) + (l.length : Int)) (2 * (l.length : Int))))

/-- `datetime.strptime(s, DATEFORMAT)` raising on failure. -/
def parse_date_e (s : String) : Except PyErr (Nat × Nat × Nat) :=
  match parse_date s with
  | some t => .ok t
  | none => .error .formatError

/-- The metrics `general_info` (lines 32-47) logs. -/
structure GeneralInfoOut where
  min_date : String
  max_date : String
  days : Int
  used : Int
  unused : Int
  mean_opens : MeanVal
deriving DecidableEq

/-- `general_info(data)` (lines 32-47), in the source's evaluation order:
min and max key, used-day count (line 36), the strptime subtraction
(line 38, max parsed first), then the mean over positive entries (line 46). -/
def general_info (app_opens : PyDict) : Except PyErr GeneralInfoOut := do
  let mn ← py_min_str (app_opens.map Prod.fst)
  let mx ← py_max_str (app_opens.map Prod.fst)
  let used ← count_used (app_opens.map Prod.snd)
  let (y1, m1, d1) ← parse_date_e mx
  let (y0, m0, d0) ← parse_date_e mn
  let days := days_from_civil y1 m1 d1 - days_from_civil y0 m0 d0
  let mean ← mean_positive (app_opens.map Prod.snd)
  .ok ⟨mn, mx, days, (used : Int), days - (used : Int), mean⟩

-- Swipe and message totals -----------------------------------------------------

/-- `sum(v for v in d.values())` as in `swipes_total` and `messages_total`
(lines 62-63, 152-155): no `int()` coercion, so a string value raises
`TypeError` when added to the integer accumulator. -/
def py_sum_raw : PyDict → Except PyErr Int
  | [] => .ok 0
  | (_, v) :: rest =>
    match v with
    | .intV n => do
      let s ← py_sum_raw rest
      .ok (n + s)
    | .strV _ => .error .typeError

/-- The figures `swipes_total` (lines 151-162) logs; percentages in tenths. -/
structure SwipeTotals where
  total_swipes : Int
  total_likes : Int
  total_passes : Int
  total_matches : Int
  pass_pct : Int
  like_pct : Int
  match_swipe_pct : Int
  match_like_pct : Int
deriving DecidableEq

/-- `swipes_total(likes, passes, matches)` (lines 151-162): the four raw sums,
then the percentage lines; the first division by `total_swipes` is on
line 158 and the division by `total_likes` on line 161, so a zero total of
swipes, or failing that a zero total of likes, raises `ZeroDivisionError`. -/
def swipes_total (likes passes matches_dict : PyDict) : Except PyErr SwipeTotals := do
  let tl ← py_sum_raw likes
  let tp ← py_sum_raw passes
  let ts := tl + tp
  let tm ← py_sum_raw matches_dict
  if ts = 0 then .error .zeroDivision
  else if tl = 0 then .error .zeroDivision
  else .ok ⟨ts, tl, tp, tm, pct_tenths tp ts, pct_tenths tl ts,
            pct_tenths tm ts, pct_tenths tm tl⟩

/-- `messages_total(sent, received)` (lines 61-67): the two raw sums, logged. -/
def messages_total (sent received : PyDict) : Except PyErr (Int × Int) := do
  let ts ← py_sum_raw sent
  let tr ← py_sum_raw received
  .ok (ts, tr)

/-- The monthly aggregation-and-series step of `messages_monthly` (line 72):
`_split_tuples(sorted(_get_mapped_sum(id_fun, sent).items()))`. -/
def messages_monthly_series (msgs : PyDict) :
    Except PyErr (List String × List Int) := do
  let m ← get_mapped_sum id_fun_month msgs
  .ok (series_builder m)

-- Decidable-friendly predicates for stating hypotheses ------------------------

/-- `true` iff the computation succeeded. -/
def is_ok {e a : Type} : Except e a → Bool
  | .ok _ => true
  | .error _ => false

/-- `true` iff the value is an int that is not positive (so it is filtered out
by `v > 0` without error). -/
def is_nonpos_int : PyVal → Bool
  | .intV n => decide (n ≤ 0)
  | .strV _ => false

-- Helper lemmas ----------------------------------------------------------------

theorem except_ok_bind {e a b : Type} (x : a) (f : a → Except e b) :
    (Except.ok x >>= f) = f x := rfl

theorem except_error_bind {e a b : Type} (err : e) (f : a → Except e b) :
    ((Except.error err : Except e a) >>= f) = Except.error err := rfl

theorem is_ok_iff {e a : Type} (x : Except e a) : is_ok x = true ↔ ∃ v, x = .ok v := by
  cases x <;> simp [is_ok]

theorem sum_vals_defaultdict_add {G : Type} [DecidableEq G]
    (m : List (G × Int)) (g : G) (v : Int) :
    sum_vals (defaultdict_add m g v) = sum_vals m + v := by
  induction m with
  | nil => simp [defaultdict_add, sum_vals]
  | cons hd tl ih =>
    obtain ⟨g', v'⟩ := hd
    by_cases h : g' = g
    · simp [defaultdict_add, h, sum_vals]
      ring
    · simp [defaultdict_add, h, sum_vals] at ih ⊢
      omega

theorem get_mapped_sum_go_sum {G : Type} [DecidableEq G] (f : String → Except PyErr G) :
    ∀ (data : PyDict) (acc m : List (G × Int)),
      get_mapped_sum_go f data acc = .ok m →
      ∃ s, sum_py data = .ok s ∧ sum_vals m = sum_vals acc + s := by
  intro data
  induction data with
  | nil =>
    intro acc m h
    simp [get_mapped_sum_go] at h
    exact ⟨0, rfl, by simp [h, sum_vals]⟩
  | cons kv rest ih =>
    obtain ⟨k, v⟩ := kv
    intro acc m h
    cases hf : f k with
    | error e => simp [get_mapped_sum_go, hf, except_error_bind] at h
    | ok g =>
      cases hv : py_int v with
      | error e => simp [get_mapped_sum_go, hf, hv, except_ok_bind, except_error_bind] at h
      | ok n =>
        simp only [get_mapped_sum_go, hf, hv, except_ok_bind] at h
        obtain ⟨s, hs, hm⟩ := ih (defaultdict_add acc g n) m h
        refine ⟨n + s, by simp [sum_py, hv, hs, except_ok_bind], ?_⟩
        rw [hm, sum_vals_defaultdict_add]
        ring

theorem month_classifier_go_ok (data : PyDict) :
    ∀ acc : List (String × Int), (∀ p ∈ data, is_ok (py_int p.2) = true) →
      ∃ m, get_mapped_sum_go id_fun_month data acc = .ok m := by
  induction data with
  | nil => intro acc _; exact ⟨acc, rfl⟩
  | cons kv rest ih =>
    obtain ⟨k, v⟩ := kv
    intro acc hvals
    obtain ⟨n, hn⟩ := (is_ok_iff _).mp (hvals (k, v) (by simp))
    obtain ⟨m, hm⟩ := ih (defaultdict_add acc ⟨k.data.take 7⟩ n)
      (fun p hp => hvals p (by simp [hp]))
    exact ⟨m, by simp [get_mapped_sum_go, id_fun_month, hn, except_ok_bind, hm]⟩

theorem weekday_classifier_go_error (data : PyDict) :
    ∀ acc : List (Nat × Int),
      (∀ p ∈ data, is_ok (py_int p.2) = true) →
      (∃ p ∈ data, parse_date p.1 = none) →
      get_mapped_sum_go id_fun_weekday data acc = .error .formatError := by
  induction data with
  | nil => intro _ _ hbad; simp at hbad
  | cons kv rest ih =>
    obtain ⟨k, v⟩ := kv
    intro acc hvals hbad
    cases hpd : parse_date k with
    | none => simp [get_mapped_sum_go, id_fun_weekday, hpd, except_error_bind]
    | some t =>
      obtain ⟨y, m, d⟩ := t
      obtain ⟨n, hn⟩ := (is_ok_iff _).mp (hvals (k, v) (by simp))
      have hrest : ∃ p ∈ rest, parse_date p.1 = none := by
        rcases hbad with ⟨p, hp, hpnone⟩
        rcases List.mem_cons.mp hp with he | hm
        · rw [he] at hpnone; simp at hpnone; rw [hpd] at hpnone; cases hpnone
        · exact ⟨p, hm, hpnone⟩
      simp only [get_mapped_sum_go, id_fun_weekday, hpd, hn, except_ok_bind]
      exact ih _ (fun p hp => hvals p (by simp [hp])) hrest

theorem count_used_nonpos (vs : List PyVal) (h : ∀ v ∈ vs, is_nonpos_int v = true) :
    count_used vs = .ok 0 := by
  induction vs with
  | nil => rfl
  | cons v rest ih =>
    have hv := h v (by simp)
    cases v with
    | intV n =>
      simp only [is_nonpos_int, decide_eq_true_eq] at hv
      have hr := ih (fun w hw => h w (by simp [hw]))
      simp [count_used, py_gt_zero, except_ok_bind, hr, show ¬(0 < n) by omega]
    | strV s => simp [is_nonpos_int] at hv

theorem collect_positive_nonpos (vs : List PyVal) (h : ∀ v ∈ vs, is_nonpos_int v = true) :
    collect_positive vs = .ok [] := by
  induction vs with
  | nil => rfl
  | cons v rest ih =>
    have hv := h v (by simp)
    cases v with
    | intV n =>
      simp only [is_nonpos_int, decide_eq_true_eq] at hv
      have hr := ih (fun w hw => h w (by simp [hw]))
      simp [collect_positive, py_gt_zero, except_ok_bind, hr, show ¬(0 < n) by omega]
    | strV s => simp [is_nonpos_int] at hv

theorem count_used_str_error (vs : List PyVal) (h : ∃ s, PyVal.strV s ∈ vs) :
    count_used vs = .error .typeError := by
  induction vs with
  | nil => simp at h
  | cons v rest ih =>
    cases v with
    | strV s => simp [count_used, py_gt_zero, except_error_bind]
    | intV n =>
      have hrest : ∃ s, PyVal.strV s ∈ rest := by
        rcases h with ⟨s, hs⟩
        rcases List.mem_cons.mp hs with he | hm
        · cases he
        · exact ⟨s, hm⟩
      simp [count_used, py_gt_zero, except_ok_bind, ih hrest, except_error_bind]

theorem str_min_cases (a b : String) : str_min a b = a ∨ str_min a b = b := by
  unfold str_min
  split <;> simp

theorem str_max_cases (a b : String) : str_max a b = a ∨ str_max a b = b := by
  unfold str_max
  split <;> simp

theorem foldl_str_min_mem : ∀ (xs : List String) (x : String), xs.foldl str_min x ∈ x :: xs := by
  intro xs
  induction xs with
  | nil => intro x; simp
  | cons y ys ih =>
    intro x
    rw [List.foldl_cons]
    have h2 := ih (str_min x y)
    rcases List.mem_cons.mp h2 with h3 | h3
    · rcases str_min_cases x y with he | he <;> rw [h3, he] <;> simp
    · simp [h3]

theorem foldl_str_max_mem : ∀ (xs : List String) (x : String), xs.foldl str_max x ∈ x :: xs := by
  intro xs
  induction xs with
  | nil => intro x; simp
  | cons y ys ih =>
    intro x
    rw [List.foldl_cons]
    have h2 := ih (str_max x y)
    rcases List.mem_cons.mp h2 with h3 | h3
    · rcases str_max_cases x y with he | he <;> rw [h3, he] <;> simp
    · simp [h3]

theorem py_min_str_mem (l : List String) (mn : String) (h : py_min_str l = .ok mn) :
    mn ∈ l := by
  cases l with
  | nil => cases h
  | cons x xs =>
    simp only [py_min_str, Except.ok.injEq] at h
    rw [← h]
    exact foldl_str_min_mem xs x

theorem py_max_str_mem (l : List String) (mx : String) (h : py_max_str l = .ok mx) :
    mx ∈ l := by
  cases l with
  | nil => cases h
  | cons x xs =>
    simp only [py_max_str, Except.ok.injEq] at h
    rw [← h]
    exact foldl_str_max_mem xs x

-- Claims -----------------------------------------------------------------------

/-- C1: for every mapping of date-string to count-like value and every
classification function, the Grouping Aggregator is conservative: whenever
`_get_mapped_sum` succeeds, the values of the grouped output sum to exactly
the sum of the integer-coerced values of the input mapping. -/
theorem conservation_of_total {G : Type} [DecidableEq G]
    (f : String → Except PyErr G) (data : PyDict) (m : List (G × Int))
    (h : get_mapped_sum f data = .ok m) :
    sum_py data = .ok (sum_vals m) := by
  obtain ⟨s, hs, hm⟩ := get_mapped_sum_go_sum f data [] m h
  rw [hs, hm]
  simp [sum_vals]

/-- Witness for C1 at a two-entry mapping with one string-encoded count. -/
theorem conservation_of_total_witness :
    sum_py [("2024-01-01", PyVal.intV 2), ("2024-02-01", PyVal.strV "3")]
      = .ok (sum_vals [(("2024-01" : String), (2 : Int)), ("2024-02", 3)]) :=
  conservation_of_total id_fun_month _ _ (by decide)

/-- C2 counterexample: the key `"2024-01"` is shorter than ten characters and
does not conform to `YYYY-MM-DD`, yet the Grouping Aggregator under the month
classifier does not fail — Python slicing `x[0:7]` silently accepts the short
string, so the aggregation succeeds. -/
theorem short_key_month_classifier_cex :
    get_mapped_sum id_fun_month [("2024-01", PyVal.intV 3)]
      = .ok [("2024-01", 3)] := by decide

/-- C2 (amended): for a mapping whose values are all coercible, a key that
fails to parse per `YYYY-MM-DD` makes the Grouping Aggregator fail with a
FormatError under the weekday classifier only; under the month classifier the
aggregator never raises, silently truncating the key to its first seven
characters. -/
theorem format_error_weekday_classifier_only (data : PyDict)
    (hvals : ∀ p ∈ data, is_ok (py_int p.2) = true)
    (hbad : ∃ p ∈ data, parse_date p.1 = none) :
    get_mapped_sum id_fun_weekday data = .error .formatError
    ∧ ∃ m, get_mapped_sum id_fun_month data = .ok m := by
  constructor
  · exact weekday_classifier_go_error data [] hvals hbad
  · exact month_classifier_go_ok data [] hvals

/-- Witness for C2's amended claim at the short key `"2024-01"`. -/
theorem format_error_weekday_classifier_only_witness :
    get_mapped_sum id_fun_weekday [("2024-01", PyVal.intV 3)] = .error .formatError
    ∧ ∃ m, get_mapped_sum id_fun_month [("2024-01", PyVal.intV 3)] = .ok m :=
  format_error_weekday_classifier_only [("2024-01", PyVal.intV 3)] (by decide) (by decide)

/-- C5: if the total of swipes (likes plus passes) is zero, or the total of
likes is zero, `swipes_total` fails with the surfaced division error rather
than emitting any value. -/
theorem swipes_total_zero_division (likes passes matches_dict : PyDict) (L P M : Int)
    (hL : py_sum_raw likes = .ok L) (hP : py_sum_raw passes = .ok P)
    (hM : py_sum_raw matches_dict = .ok M)
    (h0 : L + P = 0 ∨ L = 0) :
    swipes_total likes passes matches_dict = .error .zeroDivision := by
  rcases h0 with h | h
  · simp [swipes_total, hL, hP, hM, except_ok_bind, h]
  · by_cases hS : L + P = 0
    · simp [swipes_total, hL, hP, hM, except_ok_bind, hS]
    · simp [swipes_total, hL, hP, hM, except_ok_bind, hS, h]

/-- Witness for C5 at empty swipe history. -/
theorem swipes_total_zero_division_witness :
    swipes_total [] [] [] = .error .zeroDivision :=
  swipes_total_zero_division [] [] [] 0 0 0 rfl rfl rfl (Or.inl (by decide))

/-- C6: on the example dataset with 10 likes, 5 passes and 2 matches on one
day, `swipes_total` reports 15 swipes, likes at 66.7% of swipes, matches at
13.3% of swipes and 20.0% of likes (one-decimal percentages in tenths). -/
theorem swipes_total_example :
    swipes_total [("2024-01-01", PyVal.intV 10)] [("2024-01-01", PyVal.intV 5)]
        [("2024-01-01", PyVal.intV 2)]
      = .ok ⟨15, 10, 5, 2, 333, 667, 133, 200⟩ := by decide

/-- C7: on empty `messages_sent`/`messages_received` mappings the grouping
step does not raise: the monthly aggregation yields the empty grouped mapping
and hence empty key and value series, and the totals are 0 and 0. -/
theorem messages_empty_no_raise :
    get_mapped_sum id_fun_month ([] : PyDict) = .ok []
    ∧ messages_monthly_series [] = .ok ([], [])
    ∧ messages_total [] [] = .ok (0, 0) := by
  refine ⟨by decide, by decide, by decide⟩

/-- C8: on `app_opens = {"2024-01-01": 1, "2024-01-02": 0, "2024-01-03": 1}`,
`general_info` reports a day span of 2, 2 used days, 0 unused days, and a
mean of 1.0 opens per used day (10 tenths). -/
theorem general_info_example :
    general_info [("2024-01-01", PyVal.intV 1), ("2024-01-02", PyVal.intV 0),
        ("2024-01-03", PyVal.intV 1)]
      = .ok ⟨"2024-01-01", "2024-01-03", 2, 2, 0, .num 10⟩ := by decide

theorem pair_le_ne_lt {G : Type} [LinearOrder G] {a b : G × Int}
    (h : pair_le a b) (hne : a.1 ≠ b.1) : a.1 < b.1 := by
  rcases h with h | ⟨he, _⟩
  · exact h
  · exact absurd he hne

/-- C3: the Series Builder produces two sequences of equal length, the keys
strictly ascending (hence duplicate-free), with each value at the index of
its key (the pair at index `i` is a pair of the grouped mapping); as a pure
function of its input it is deterministic.  The key-uniqueness hypothesis is
the dict invariant of the grouped mapping. -/
theorem series_builder_sorted {G : Type} [LinearOrder G] (m : List (G × Int))
    (hnd : (m.map Prod.fst).Nodup) :
    (series_builder m).1.length = (series_builder m).2.length
    ∧ List.Pairwise (· < ·) (series_builder m).1
    ∧ ∀ i (h1 : i < (series_builder m).1.length) (h2 : i < (series_builder m).2.length),
        ((series_builder m).1.get ⟨i, h1⟩, (series_builder m).2.get ⟨i, h2⟩) ∈ m := by
  have hperm : List.Perm (py_sorted m) m := List.perm_insertionSort _ m
  have hsorted : List.Pairwise pair_le (py_sorted m) := List.sorted_insertionSort _ m
  refine ⟨by simp [series_builder, split_tuples], ?_, ?_⟩
  · have hnd2 : ((py_sorted m).map Prod.fst).Nodup := (hperm.map Prod.fst).nodup_iff.mpr hnd
    have hne : List.Pairwise (fun a b : G × Int => a.1 ≠ b.1) (py_sorted m) := by
      simpa [List.Nodup, List.pairwise_map] using hnd2
    show List.Pairwise (· < ·) ((py_sorted m).map Prod.fst)
    rw [List.pairwise_map]
    exact (hsorted.and hne).imp (fun hab => pair_le_ne_lt hab.1 hab.2)
  · intro i h1 h2
    have hlen : i < (py_sorted m).length := by
      simpa [series_builder, split_tuples] using h1
    have hmem : (py_sorted m).get ⟨i, hlen⟩ ∈ m :=
      hperm.mem_iff.mp (List.get_mem _ _ _)
    have he1 : (series_builder m).1.get ⟨i, h1⟩ = ((py_sorted m).get ⟨i, hlen⟩).1 := by
      simp [series_builder, split_tuples]
    have he2 : (series_builder m).2.get ⟨i, h2⟩ = ((py_sorted m).get ⟨i, hlen⟩).2 := by
      simp [series_builder, split_tuples]
    rw [he1, he2]
    simpa using hmem

/-- Witness for C3 on a two-group weekday mapping. -/
theorem series_builder_sorted_witness :
    (series_builder [((3 : Nat), (7 : Int)), (0, 2)]).1.length
        = (series_builder [((3 : Nat), (7 : Int)), (0, 2)]).2.length
    ∧ List.Pairwise (· < ·) (series_builder [((3 : Nat), (7 : Int)), (0, 2)]).1
    ∧ ∀ i (h1 : i < (series_builder [((3 : Nat), (7 : Int)), (0, 2)]).1.length)
        (h2 : i < (series_builder [((3 : Nat), (7 : Int)), (0, 2)]).2.length),
        ((series_builder [((3 : Nat), (7 : Int)), (0, 2)]).1.get ⟨i, h1⟩,
          (series_builder [((3 : Nat), (7 : Int)), (0, 2)]).2.get ⟨i, h2⟩)
          ∈ [((3 : Nat), (7 : Int)), (0, 2)] :=
  series_builder_sorted [((3 : Nat), (7 : Int)), (0, 2)] (by decide)

/-- C10: the Series Builder is a faithful decomposition of the grouped
mapping: zipping the key and value sequences back together is a permutation
of the input's item list (so it reconstructs exactly the input's item set),
and every zipped pair is a key-value pair of the input. -/
theorem series_builder_reconstruction {G : Type} [LinearOrder G] (m : List (G × Int)) :
    List.Perm ((series_builder m).1.zip (series_builder m).2) m
    ∧ ∀ p, p ∈ (series_builder m).1.zip (series_builder m).2 → p ∈ m := by
  have hzip : (series_builder m).1.zip (series_builder m).2 = py_sorted m := by
    simp [series_builder, split_tuples, List.zip_map']
  constructor
  · rw [hzip]
    exact List.perm_insertionSort _ m
  · intro p hp
    rw [hzip] at hp
    exact (List.perm_insertionSort _ m).mem_iff.mp hp

/-- Witness for C10 on a two-group weekday mapping. -/
theorem series_builder_reconstruction_witness :
    List.Perm ((series_builder [((4 : Nat), (9 : Int)), (1, 5)]).1.zip
        (series_builder [((4 : Nat), (9 : Int)), (1, 5)]).2)
      [((4 : Nat), (9 : Int)), (1, 5)]
    ∧ (((1 : Nat), (5 : Int)) ∈ [((4 : Nat), (9 : Int)), (1, 5)]) :=
  ⟨(series_builder_reconstruction [((4 : Nat), (9 : Int)), (1, 5)]).1,
    (series_builder_reconstruction [((4 : Nat), (9 : Int)), (1, 5)]).2 (1, 5) (by decide)⟩

/-- C4 counterexample: on a history whose only day has zero opens (zero used
days), `general_info` does not fail: numpy's mean of the empty slice is NaN,
so the section succeeds and reports a non-numeric mean. -/
theorem general_info_nan_cex :
    general_info [("2024-01-01", PyVal.intV 0)]
      = .ok ⟨"2024-01-01", "2024-01-01", 0, 0, 0, .nan⟩ := by decide

/-- C4 (amended): on a nonempty `app_opens` mapping with parseable dates,
all-integer counts and zero used days, the General Info section succeeds and
reports NaN (numpy's empty-slice mean) for the mean opens per used day,
instead of failing with a division error. -/
theorem general_info_zero_used_nan (app_opens : PyDict)
    (hne : app_opens ≠ [])
    (hvals : ∀ p ∈ app_opens, is_nonpos_int p.2 = true)
    (hkeys : ∀ p ∈ app_opens, (parse_date p.1).isSome = true) :
    ∃ out, general_info app_opens = .ok out
      ∧ out.mean_opens = .nan ∧ out.used = 0 := by
  cases happ : app_opens with
  | nil => exact absurd happ hne
  | cons kv rest =>
    rw [happ] at hvals hkeys
    have hmn : py_min_str ((kv :: rest).map Prod.fst)
        = .ok ((rest.map Prod.fst).foldl str_min kv.1) := rfl
    have hmx : py_max_str ((kv :: rest).map Prod.fst)
        = .ok ((rest.map Prod.fst).foldl str_max kv.1) := rfl
    have hvals2 : ∀ v ∈ (kv :: rest).map Prod.snd, is_nonpos_int v = true := by
      intro v hv
      obtain ⟨p, hp, he⟩ := List.mem_map.mp hv
      exact he ▸ hvals p hp
    have hkeys2 : ∀ key ∈ (kv :: rest).map Prod.fst, (parse_date key).isSome = true := by
      intro key hkey
      obtain ⟨p, hp, he⟩ := List.mem_map.mp hkey
      exact he ▸ hkeys p hp
    obtain ⟨t0, ht0⟩ := Option.isSome_iff_exists.mp (hkeys2 _ (py_min_str_mem _ _ hmn))
    obtain ⟨t1, ht1⟩ := Option.isSome_iff_exists.mp (hkeys2 _ (py_max_str_mem _ _ hmx))
    obtain ⟨y0, m0, d0⟩ := t0
    obtain ⟨y1, m1, d1⟩ := t1
    have hcu : count_used ((kv :: rest).map Prod.snd) = .ok 0 :=
      count_used_nonpos _ hvals2
    have hcp : collect_positive ((kv :: rest).map Prod.snd) = .ok [] :=
      collect_positive_nonpos _ hvals2
    simp only [List.map_cons] at hcu hcp
    refine ⟨⟨(rest.map Prod.fst).foldl str_min kv.1, (rest.map Prod.fst).foldl str_max kv.1,
      days_from_civil y1 m1 d1 - days_from_civil y0 m0 d0, 0,
      days_from_civil y1 m1 d1 - days_from_civil y0 m0 d0 - 0, .nan⟩, ?_, rfl, rfl⟩
    simp [general_info, py_min_str, py_max_str, hcu, parse_date_e, ht0, ht1, mean_positive,
      hcp, except_ok_bind]

/-- Witness for C4's amended claim at a single zero-count day. -/
theorem general_info_zero_used_nan_witness :
    ∃ out, general_info [("2024-01-01", PyVal.intV 0)] = .ok out
      ∧ out.mean_opens = .nan ∧ out.used = 0 :=
  general_info_zero_used_nan [("2024-01-01", PyVal.intV 0)] (by decide) (by decide) (by decide)

/-- C9: the General Info section is only total on all-integer counts: as soon
as any count of `app_opens` is encoded as a string, the `v > 0` comparison of
line 36 fails with a type error, even though the Grouping Aggregator accepts
the same string-encoded counts by coercing them with `int(...)`. -/
theorem general_info_string_value_type_error (app_opens : PyDict) (k s : String)
    (hmem : (k, PyVal.strV s) ∈ app_opens) :
    general_info app_opens = .error .typeError
    ∧ ∀ k2 s2 n, parse_int_str s2.data = some n →
        get_mapped_sum id_fun_month [(k2, PyVal.strV s2)]
          = .ok [(⟨k2.data.take 7⟩, n)] := by
  constructor
  · cases happ : app_opens with
    | nil => rw [happ] at hmem; cases hmem
    | cons kv rest =>
      rw [happ] at hmem
      have hstr : ∃ s2, PyVal.strV s2 ∈ (kv :: rest).map Prod.snd :=
        ⟨s, List.mem_map.mpr ⟨(k, .strV s), hmem, rfl⟩⟩
      have hcu := count_used_str_error _ hstr
      simp only [List.map_cons] at hcu
      simp [general_info, py_min_str, py_max_str, except_ok_bind, hcu, except_error_bind]
  · intro k2 s2 n hp
    simp [get_mapped_sum, get_mapped_sum_go, id_fun_month, py_int, hp, except_ok_bind,
      defaultdict_add]

/-- Witness for C9 at a single string-encoded count. -/
theorem general_info_string_value_type_error_witness :
    general_info [("2024-01-01", PyVal.strV "5")] = .error .typeError
    ∧ get_mapped_sum id_fun_month [("2024-01-01", PyVal.strV "5")]
        = .ok [("2024-01", 5)] := by
  have h := general_info_string_value_type_error [("2024-01-01", PyVal.strV "5")]
    "2024-01-01" "5" (by decide)
  refine ⟨h.1, ?_⟩
  have h2 := h.2 "2024-01-01" "5" 5 (by decide)
  exact h2.trans (by decide)
